import Mathlib

/-!
Verification of the NorMITs-Demand gravity model calibration engine.

This file gives a shallow embedding, over exact rational arithmetic, of the
cost-distribution utilities (`normits_demand/cost/utils.py`) and the gravity
model calibrators (`normits_demand/distribution/gravity_model.py`), and proves
the specified properties about them.

Matrices are embedded either as flattened lists of cells (a cell pairs a cost
value with a weight value, mirroring how `numpy.histogram` flattens its
inputs) or as functions over `Fin` index types where row/column structure is
needed.  Machine floats are modelled as `ℚ` (and `ℝ` where a square root is
taken); float division guarded in the source by a zero test is embedded with
the same guard.
-/

/-! ## Cost distribution utilities: `normits_demand/cost/utils.py` -/

/-- Weight falling into one histogram bin `[lo, hi)`; mirroring
`numpy.histogram`, the last bin is closed on the right (`[lo, hi]`). -/
def histogramBin (lo hi : ℚ) (isLast : Bool) (cells : List (ℚ × ℚ)) : ℚ :=
  (cells.map fun c =>
    if lo ≤ c.1 ∧ (c.1 < hi ∨ (isLast = true ∧ c.1 = hi)) then c.2 else 0).sum

/-- Embedding of `numpy.histogram(a=cost, bins=bin_edges, weights=matrix)`:
one weighted bin per consecutive pair of bin edges.  A cell is a
(cost, weight) pair of one matrix position. -/
def npHistogram (bin_edges : List ℚ) (cells : List (ℚ × ℚ)) : List ℚ :=
  (List.range (bin_edges.length - 1)).map fun i =>
    histogramBin (bin_edges.getD i 0) (bin_edges.getD (i + 1) 0)
      (decide (i + 2 = bin_edges.length)) cells

/-- Embedding of `cost_utils.calculate_cost_distribution` (bin_edges form):
bin the weighted cells with `numpy.histogram`, then normalise; if the binned
total is zero, return a zero vector of the same length. -/
def calculate_cost_distribution (cells : List (ℚ × ℚ)) (bin_edges : List ℚ) :
    List ℚ :=
  let distribution := npHistogram bin_edges cells
  if distribution.sum = 0 then
    distribution.map fun _ => 0
  else
    distribution.map fun x => x / distribution.sum

/-- Embedding of the per-band body of
`cost_utils.calculate_average_cost_in_bounds`: band mask by
`min_val <= cost < max_val`, trip-weighted total distance and total trips,
falling back to `min_val` when the band holds no trips. -/
def averageCostInBand (min_val max_val : ℚ) (cells : List (ℚ × ℚ)) : ℚ :=
  let band_distance :=
    (cells.map fun c =>
      c.2 * (if min_val ≤ c.1 ∧ c.1 < max_val then 1 else 0) * c.1).sum
  let band_trips :=
    (cells.map fun c =>
      c.2 * (if min_val ≤ c.1 ∧ c.1 < max_val then 1 else 0)).sum
  if band_trips = 0 then min_val else band_distance / band_trips

/-- Embedding of `cost_utils.calculate_average_cost_in_bounds`: one average
per (min, max) bounds pair. -/
def calculate_average_cost_in_bounds (bounds : List (ℚ × ℚ))
    (cells : List (ℚ × ℚ)) : List ℚ :=
  bounds.map fun b => averageCostInBand b.1 b.2 cells

/-- Specification-side trip-weighted average cost of the cells whose cost
falls inside `[min_val, max_val)`, written with an explicit filter. -/
def bandWeightedAvg (min_val max_val : ℚ) (cells : List (ℚ × ℚ)) : ℚ :=
  let in_band := cells.filter fun c => decide (min_val ≤ c.1 ∧ c.1 < max_val)
  ((in_band.map fun c => c.2 * c.1).sum) / ((in_band.map fun c => c.2).sum)

/-- Specification-side total trips of the cells whose cost falls inside
`[min_val, max_val)`. -/
def bandTripTotal (min_val max_val : ℚ) (cells : List (ℚ × ℚ)) : ℚ :=
  ((cells.filter fun c => decide (min_val ≤ c.1 ∧ c.1 < max_val)).map
    fun c => c.2).sum

/-! ## Perceived factors: `GravityModelBase._calculate_perceived_factors` -/

/-- Embedding of `numpy.clip(x, lo, hi)`. -/
noncomputable def npClip (x lo hi : ℝ) : ℝ :=
  min (max x lo) hi

/-- Embedding of the per-band factor computation in
`GravityModelBase._calculate_perceived_factors`: the achieved/target band
share ratio is taken with `numpy.divide(..., where=target > 0, out=ones)`,
so bands with non-positive target share keep the ratio 1; the ratio is then
raised to the power 0.5 and clipped to `[0.5, 2]`. -/
noncomputable def perc_factors {k : ℕ}
    (achieved_band_share target_band_share : Fin k → ℝ) : Fin k → ℝ :=
  fun i =>
    let guarded :=
      if 0 < target_band_share i then
        achieved_band_share i / target_band_share i
      else 1
    npClip (Real.sqrt guarded) (1 / 2) 2

/-! ## Target cost distribution table: `GravityModelBase._update_tcd` -/

/-- Embedding of one row of the target-cost-distribution table after
`pd_utils.reindex_cols` to the columns min, max, trips, ave_km (plus the
band_share column `_update_tcd` writes).  A missing float (`NaN`) is
modelled as `none`. -/
structure TCDRow where
  min : ℚ
  max : ℚ
  trips : ℚ
  ave_km : Option ℚ
  band_share : Option ℚ
deriving DecidableEq

/-- Embedding of `GravityModelBase._update_tcd`: infill `ave_km` with the
row's min bound where it is zero or NaN, then recompute `band_share` as
`trips / trips.sum()`. -/
def update_tcd (tcd : List TCDRow) : List TCDRow :=
  let total := (tcd.map fun r => r.trips).sum
  tcd.map fun r =>
    let new_ave :=
      match r.ave_km with
      | none => r.min
      | some v => if v = 0 then r.min else v
    { r with ave_km := some new_ave, band_share := some (r.trips / total) }

/-! ## Perceived-factor pass control flow: `GravityModelCalibrator.calibrate` -/

/-- Observable outcome of one `GravityModelCalibrator.calibrate` call for the
perceived-factor control flow: how many full `_calibrate` optimisation passes
ran, and which non-fatal warnings were emitted. -/
structure CalibrateOutcome where
  optimisation_passes : ℕ
  warned_lower_threshold : Bool
  warned_final_shortfall : Bool
deriving DecidableEq

/-- Embedding of the tail of `GravityModelCalibrator.calibrate` after
`_calibrate` has run once.  `achieved n` is the convergence the gravity model
reports after the n-th `_calibrate` pass (an oracle for the numerical
optimiser).  Mirrors the source: return at once if not using perceived
factors; return if the first pass beat `target + 0.03`; warn and return if it
fell below `target - 0.15`; otherwise compute perceived factors, run
`_calibrate` exactly once more, and warn non-fatally if the final convergence
is still below target. -/
def calibrate_perceived_flow (use_perceived_factors : Bool)
    (target_convergence : ℚ) (achieved : ℕ → ℚ) : CalibrateOutcome :=
  let conv1 := achieved 1
  if use_perceived_factors = false then
    ⟨1, false, false⟩
  else
    let upper_limit := target_convergence + 3 / 100
    let lower_limit := target_convergence - 15 / 100
    if conv1 > upper_limit then
      ⟨1, false, false⟩
    else if conv1 < lower_limit then
      ⟨1, true, false⟩
    else
      let conv2 := achieved 2
      ⟨2, false, decide (conv2 < target_convergence)⟩

/-! ## Construction-time validation: `GravityModelBase.__init__` and
`MultiTLDGravityModelCalibrator.__init__` -/

/-- Abstract filesystem state: which directories exist and which
(directory, file-name) paths name an existing file.  Directories and file
names are drawn from an abstract countable namespace. -/
structure FileSys where
  dirExists : ℕ → Bool
  fileExists : ℕ × ℕ → Bool

/-- Configuration errors raised by the constructors. -/
inductive ConfigError where
  | logDirNotFound : ConfigError
  | missingCalibrationName : ConfigError
  | missingTargetCostDistribution : ConfigError
deriving DecidableEq

/-- Modelled from the spec: `checks.all_keys_exist(d, keys)`
(`normits_demand/validation/checks.py` is not among the sources) — whether
every required key is present in the dictionary's key set. -/
def all_keys_exist (dict_keys : List ℤ) (keys : List ℤ) : Bool :=
  keys.all fun k => dict_keys.contains k

/-- Modelled from the spec: `du.list_safe_remove(lst, remove)`
(`normits_demand/utils/general.py` is not among the sources) — remove the
given values from the list, silently skipping values that are absent. -/
def list_safe_remove (l : List ℤ) (remove : List ℤ) : List ℤ :=
  l.filter fun x => !(remove.contains x)

/-- Embedding of `np.unique(calibration_matrix)` up to ordering: the distinct
labels occurring in the matrix.  (`np.unique` additionally sorts; the
constructor logic consumes the result only through membership.) -/
def npUnique (l : List ℤ) : List ℤ :=
  l.dedup

/-- The reserved ignore sentinel
`MultiTLDGravityModelCalibrator._ignore_calib_area_value`. -/
def ignore_calib_area_value : ℤ := -1

/-- The calibration-area id list the multi-area constructor derives:
`du.list_safe_remove(list(np.unique(calibration_matrix)), [-1])`. -/
def calib_areas_of (calibration_matrix : List ℤ) : List ℤ :=
  list_safe_remove (npUnique calibration_matrix) [ignore_calib_area_value]

/-- Embedding of the running-log-path validation shared by
`GravityModelBase.__init__` and `MultiTLDGravityModelCalibrator.__init__`:
a missing parent directory raises `FileNotFoundError`; a log file that
already exists produces only a non-fatal warning (the returned flag). -/
def validate_running_log_path (fs : FileSys)
    (running_log_path : Option (ℕ × ℕ)) : Except ConfigError Bool :=
  match running_log_path with
  | none => .ok false
  | some p =>
    if fs.dirExists p.1 = false then .error .logDirNotFound
    else .ok (fs.fileExists p)

/-- Embedding of the validation in
`MultiTLDGravityModelCalibrator.__init__`: log-path checks first, then the
calibration-area label checks against the naming and target-distribution
maps (each map is represented by its key list).  On success, returns the
calibration-area list and whether the existing-log warning fired. -/
def multi_tld_init (fs : FileSys) (running_log_path : Option (ℕ × ℕ))
    (calibration_matrix : List ℤ) (naming_keys tcd_keys : List ℤ) :
    Except ConfigError (List ℤ × Bool) :=
  match validate_running_log_path fs running_log_path with
  | .error e => .error e
  | .ok warned =>
    let calib_areas := calib_areas_of calibration_matrix
    if all_keys_exist naming_keys calib_areas = false then
      .error .missingCalibrationName
    else if all_keys_exist tcd_keys calib_areas = false then
      .error .missingTargetCostDistribution
    else .ok (calib_areas, warned)

/-! ## Multi-area coordinator result: `_threaded_calibrate` -/

/-- Possible outcomes of `MultiTLDGravityModelCalibrator._threaded_calibrate`:
either a per-area dictionary of optimal cost parameters is returned (as its
docstring promises), or the process terminates. -/
inductive ThreadedCalibrateResult (π : Type) where
  | returnsDict : List (ℤ × π) → ThreadedCalibrateResult π
  | processExit : ThreadedCalibrateResult π
deriving DecidableEq

/-- Embedding of the return value of `SingleTLDCalibratorThread.run_target`:
the method runs `_calibrate` for its area and then executes a bare
`return`, handing `None` back to the thread-join machinery. -/
def single_tld_run_target_return (π : Type) : Option π :=
  none

/-- Embedding of the tail of
`MultiTLDGravityModelCalibrator._threaded_calibrate`: the coordinator joins
every area calibration thread, collecting each thread's `run_target` return
value, then prints diagnostic values and calls `exit()` — terminating the
process instead of building and returning the per-area optimal-parameter
dictionary. -/
def threaded_calibrate (π : Type) (calib_areas : List ℤ) :
    ThreadedCalibrateResult π :=
  let _furnessed_mats : List (ℤ × Option π) :=
    calib_areas.map fun a => (a, single_tld_run_target_return π)
  ThreadedCalibrateResult.processExit

/-! ## Aggregator waiting: `FurnessThreadBase._get_q_data` / `run_target` -/

/-- One polling pass of `FurnessThreadBase._get_q_data`: every area whose
getter queue currently holds data is removed from the needed set; the rest
stay needed.  `avail a` tells whether area `a`'s queue holds data during
this pass. -/
def pollStep (avail : ℤ → Bool) (need : List ℤ) : List ℤ :=
  need.filter fun a => !(avail a)

/-- The needed-area set after `k` polling passes of `_get_q_data`, where
`avail t a` tells whether area `a`'s queue holds data during pass `t`. -/
def pollRun (avail : ℕ → ℤ → Bool) (need : List ℤ) : ℕ → List ℤ
  | 0 => need
  | k + 1 => pollStep (avail k) (pollRun avail need k)

/-- Whether the `_get_q_data` wait loop ever completes: some number of
polling passes empties the needed set. -/
def getQDataCompletes (avail : ℕ → ℤ → Bool) (need : List ℤ) : Prop :=
  ∃ k, pollRun avail need k = []

/-- Embedding of the start of each `FurnessThreadBase.run_target` round:
`need_area_keys = list(self.calib_area_keys)` — the wait set is initialised
to the full calibration-area key set, with no reference to which area
workers are still alive. -/
def run_target_round_need (calib_area_keys : List ℤ) : List ℤ :=
  calib_area_keys

/-! ## Split/merge of the globally furnessed matrix -/

/-- Embedding of one cell of `area_mats[area_id] = calibration_matrix ==
area_id` as a 0/1 weight. -/
def area_mask (label area_id : ℤ) : ℚ :=
  if label = area_id then 1 else 0

/-- Embedding of `furnessed_mat * self.area_mats[area_code]` at one cell:
a cell is a (label, value) pair of the flattened global matrix. -/
def split_cell (c : ℤ × ℚ) (area_id : ℤ) : ℚ :=
  c.2 * area_mask c.1 area_id

/-- Summing the per-area masked partial matrices over every calibration
area, together with the cells labelled with the ignore sentinel, cell by
cell. -/
def merge_split (furnessed : List (ℤ × ℚ)) : List ℚ :=
  let areas := calib_areas_of (furnessed.map fun c => c.1)
  furnessed.map fun c =>
    (areas.map fun a => split_cell c a).sum
      + split_cell c ignore_calib_area_value

/-! ## Jacobian estimation: `GravityModelBase._jacobian_function` and
`GravityModelCalibrator.jacobian_furness` -/

/-- Rational matrices with explicit row/column index types. -/
abbrev Mat (n m : ℕ) : Type :=
  Fin n → Fin m → ℚ

/-- Total of every entry: `numpy`'s `.sum()`. -/
def matTotal {n m : ℕ} (M : Mat n m) : ℚ :=
  ∑ i, ∑ j, M i j

/-- Row sums: `.sum(axis=1)`. -/
def rowSums {n m : ℕ} (M : Mat n m) : Fin n → ℚ :=
  fun i => ∑ j, M i j

/-- Column sums: `.sum(axis=0)`. -/
def colSums {n m : ℕ} (M : Mat n m) : Fin m → ℚ :=
  fun j => ∑ i, M i j

/-- Flattening of a cost matrix and a weight matrix into (cost, weight)
cells, in the order `numpy.histogram` consumes them. -/
def matCells {n m : ℕ} (cost M : Mat n m) : List (ℚ × ℚ) :=
  (List.finRange n).flatMap fun i =>
    (List.finRange m).map fun j => (cost i j, M i j)

/-- Embedding of `GravityModelBase._cost_distribution` over matrices. -/
def cost_distribution {n m : ℕ} (cost M : Mat n m)
    (tcd_bin_edges : List ℚ) : List ℚ :=
  calculate_cost_distribution (matCells cost M) tcd_bin_edges

/-- The furness-induced change estimate of `_jacobian_function`:
`np.divide(final, base, where=base != 0, out=zeros)` — the elementwise
ratio of the previous balanced (furnessed) matrix to the previous
unbalanced (seed) matrix, taken as 0 wherever the unbalanced value is 0. -/
def furness_factor {n m : ℕ} (base final : Mat n m) : Mat n m :=
  fun i j => if base i j ≠ 0 then final i j / base i j else 0

/-- The perturbed-matrix estimate `_jacobian_function` hands to
`jacobian_furness` for one cost parameter: the perturbed cost-function
output scaled by the furness factor, renormalised to the final matrix's
total (with `numpy`'s scalar 0 broadcast when the scaled matrix sums to
zero). -/
def jacobian_perturbed_seed {n m : ℕ} (base final adj : Mat n m) :
    Mat n m :=
  let furness_mat : Mat n m := fun i j => adj i j * furness_factor base final i j
  let s := matTotal furness_mat
  let adj_weights : Mat n m :=
    if s ≠ 0 then fun i j => furness_mat i j / s else fun _ _ => 0
  fun i j => matTotal final * adj_weights i j

/-- Embedding of `GravityModelBase._jacobian_function`, written
statement-by-statement after the source loop body.  `jf` abstracts the
subclass-supplied `jacobian_furness` (its iteration/RMSE outputs are
discarded by the source).  `jac_base`, `jac_final` and `jac_adj` are the
matrices stored in `self._jacobian_mats` by the previous
`_gravity_function` call; `achieved_band_share` is the achieved band share
it stored.  One band-share-residual column is produced per cost
parameter. -/
def jacobian_function {n m p : ℕ}
    (jf : Mat n m → (Fin n → ℚ) → (Fin m → ℚ) → Mat n m)
    (cost_matrix : Mat n m) (tcd_bin_edges : List ℚ)
    (achieved_band_share : List ℚ) (jac_base jac_final : Mat n m)
    (jac_adj : Fin p → Mat n m) (cost_args : Fin p → ℚ) (diff_step : ℚ) :
    Fin p → List ℚ :=
  fun k =>
    let ff : Mat n m := fun i j =>
      if jac_base i j ≠ 0 then jac_final i j / jac_base i j else 0
    let furness_mat : Mat n m := fun i j => jac_adj k i j * ff i j
    let s := ∑ i, ∑ j, furness_mat i j
    let adj_weights : Mat n m :=
      if s ≠ 0 then fun i j => furness_mat i j / s else fun _ _ => 0
    let adj_final_seed : Mat n m := fun i j =>
      (∑ i2, ∑ j2, jac_final i2 j2) * adj_weights i j
    let adj_final := jf adj_final_seed
      (fun i => ∑ j, jac_final i j) (fun j => ∑ i, jac_final i j)
    let achieved_band_shares :=
      calculate_cost_distribution (matCells cost_matrix adj_final)
        tcd_bin_edges
    let cost_step := cost_args k * diff_step
    (List.zipWith (fun a b => a - b) achieved_band_share
      achieved_band_shares).map fun r => r / cost_step

/-- One recorded call to `furness.doubly_constrained_furness` (the furness
module itself is outside the verified sources; only the arguments each
wrapper passes are embedded).  `warn` is `none` when the caller leaves the
`warning` argument at its default. -/
structure FurnessCall (n m : ℕ) where
  seed_vals : Mat n m
  row_targets : Fin n → ℚ
  col_targets : Fin m → ℚ
  tol : ℚ
  max_iters : ℕ
  warn : Option Bool

/-- Embedding of the arguments `GravityModelCalibrator.gravity_furness`
passes to `furness.doubly_constrained_furness`: the calibrator's configured
tolerance and iteration cap. -/
def gravity_furness_call {n m : ℕ} (furness_tol : ℚ)
    (furness_max_iters : ℕ) (seed : Mat n m) (rt : Fin n → ℚ)
    (ct : Fin m → ℚ) : FurnessCall n m :=
  ⟨seed, rt, ct, furness_tol, furness_max_iters, none⟩

/-- Embedding of the arguments `GravityModelCalibrator.jacobian_furness`
passes to `furness.doubly_constrained_furness`: a fixed tolerance of 1e-6,
a fixed cap of 20 iterations, and warnings suppressed — independent of the
calibrator's configured furness parameters. -/
def jacobian_furness_call {n m : ℕ} (seed : Mat n m) (rt : Fin n → ℚ)
    (ct : Fin m → ℚ) : FurnessCall n m :=
  ⟨seed, rt, ct, 1 / 1000000, 20, some false⟩

/-! ## Helper lemmas on list sums -/

theorem sum_map_div (l : List ℚ) (s : ℚ) :
    (l.map fun x => x / s).sum = l.sum / s := by
  induction l with
  | nil => simp
  | cons a t ih => simp [ih, add_div]

theorem ifSum_eq_filterSum (p : ℚ × ℚ → Prop) [DecidablePred p]
    (f : ℚ × ℚ → ℚ) (cells : List (ℚ × ℚ)) :
    (cells.map fun c => if p c then f c else 0).sum
      = ((cells.filter fun c => decide (p c)).map f).sum := by
  induction cells with
  | nil => rfl
  | cons a t ih =>
    by_cases h : p a
    · simp [List.filter_cons, h, ih]
    · simp [List.filter_cons, h, ih]

/-! ## C2 and C8 theorems -/

/-- C2: for every weight/cost cell list and bin-edge list,
`calculate_cost_distribution` returns band shares summing to exactly 1 when
the total binned weight is non-zero, and an all-zero vector (one zero per
band) when the total binned weight is zero; no division by zero occurs. -/
theorem calculate_cost_distribution_normalised (cells : List (ℚ × ℚ))
    (bin_edges : List ℚ) :
    ((npHistogram bin_edges cells).sum ≠ 0 →
      (calculate_cost_distribution cells bin_edges).sum = 1) ∧
    ((npHistogram bin_edges cells).sum = 0 →
      calculate_cost_distribution cells bin_edges
        = List.replicate (bin_edges.length - 1) 0) := by
  constructor
  · intro h
    simp only [calculate_cost_distribution, if_neg h]
    rw [sum_map_div, div_self h]
  · intro h
    simp only [calculate_cost_distribution, if_pos h]
    rw [List.map_const']
    congr 1
    simp [npHistogram]

/-- Witness for C2 at a concrete input: two cells with costs 1 and 3 and
weights 2 and 4, bin edges [0, 2, 4]. -/
theorem calculate_cost_distribution_normalised_witness :
    (npHistogram [0, 2, 4] [((1 : ℚ), 2), (3, 4)]).sum ≠ 0 ∧
    (calculate_cost_distribution [((1 : ℚ), 2), (3, 4)] [0, 2, 4]).sum = 1 :=
  ⟨by norm_num [npHistogram, histogramBin, List.range_succ],
   (calculate_cost_distribution_normalised [((1 : ℚ), 2), (3, 4)] [0, 2, 4]).1
     (by norm_num [npHistogram, histogramBin, List.range_succ])⟩

/-- C8: for every bounds list and cell list, each band's entry of
`calculate_average_cost_in_bounds` is exactly the band's `min` bound when the
trips falling in the band total zero, and otherwise is the trip-weighted
average cost of the cells in the band. -/
theorem calculate_average_cost_in_bounds_spec (bounds : List (ℚ × ℚ))
    (cells : List (ℚ × ℚ)) (i : ℕ) (hi : i < bounds.length) :
    (bandTripTotal (bounds.get ⟨i, hi⟩).1 (bounds.get ⟨i, hi⟩).2 cells = 0 →
      (calculate_average_cost_in_bounds bounds cells).getD i 0
        = (bounds.get ⟨i, hi⟩).1) ∧
    (bandTripTotal (bounds.get ⟨i, hi⟩).1 (bounds.get ⟨i, hi⟩).2 cells ≠ 0 →
      (calculate_average_cost_in_bounds bounds cells).getD i 0
        = bandWeightedAvg (bounds.get ⟨i, hi⟩).1 (bounds.get ⟨i, hi⟩).2 cells)
    := by
  have hget : (calculate_average_cost_in_bounds bounds cells).getD i 0
      = averageCostInBand (bounds.get ⟨i, hi⟩).1 (bounds.get ⟨i, hi⟩).2
          cells := by
    rw [calculate_average_cost_in_bounds, List.getD_eq_getElem?_getD,
      List.getElem?_map]
    rw [List.getElem?_eq_getElem hi]
    rfl
  have htrips : ∀ mn mx : ℚ,
      (cells.map fun c =>
        c.2 * (if mn ≤ c.1 ∧ c.1 < mx then 1 else 0)).sum
        = bandTripTotal mn mx cells := by
    intro mn mx
    rw [bandTripTotal,
      ← ifSum_eq_filterSum (fun c => mn ≤ c.1 ∧ c.1 < mx) (fun c => c.2)
        cells]
    simp [mul_ite]
  have hdist : ∀ mn mx : ℚ,
      (cells.map fun c =>
        c.2 * (if mn ≤ c.1 ∧ c.1 < mx then 1 else 0) * c.1).sum
        = ((cells.filter fun c => decide (mn ≤ c.1 ∧ c.1 < mx)).map
            fun c => c.2 * c.1).sum := by
    intro mn mx
    rw [← ifSum_eq_filterSum (fun c => mn ≤ c.1 ∧ c.1 < mx)
      (fun c => c.2 * c.1) cells]
    congr 1
    refine List.map_congr_left fun c _ => ?_
    by_cases h : mn ≤ c.1 ∧ c.1 < mx <;> simp [h]
  constructor
  · intro h0
    rw [hget, averageCostInBand]
    simp only [htrips]
    rw [if_pos h0]
  · intro h0
    rw [hget, averageCostInBand]
    simp only [htrips]
    rw [if_neg h0, bandWeightedAvg, hdist]
    rfl

/-- Witness for C8 at a concrete input: bounds [(0, 2), (2, 4)], a single
cell of cost 1 and weight 5.  The first band averages to 1 (weighted
average), the second band is empty and falls back to its min bound 2. -/
theorem calculate_average_cost_in_bounds_spec_witness :
    (bandTripTotal (0 : ℚ) 2 [((1 : ℚ), 5)] ≠ 0 ∧
      (calculate_average_cost_in_bounds [((0 : ℚ), 2), (2, 4)]
        [((1 : ℚ), 5)]).getD 0 0 = bandWeightedAvg 0 2 [((1 : ℚ), 5)]) ∧
    (bandTripTotal (2 : ℚ) 4 [((1 : ℚ), 5)] = 0 ∧
      (calculate_average_cost_in_bounds [((0 : ℚ), 2), (2, 4)]
        [((1 : ℚ), 5)]).getD 1 0 = 2) :=
  ⟨⟨by norm_num [bandTripTotal, List.filter_cons],
    (calculate_average_cost_in_bounds_spec [((0 : ℚ), 2), (2, 4)]
      [((1 : ℚ), 5)] 0 (by norm_num)).2
      (by norm_num [bandTripTotal, List.filter_cons])⟩,
   ⟨by norm_num [bandTripTotal, List.filter_cons],
    (calculate_average_cost_in_bounds_spec [((0 : ℚ), 2), (2, 4)]
      [((1 : ℚ), 5)] 1 (by norm_num)).1
      (by norm_num [bandTripTotal, List.filter_cons])⟩⟩

/-! ## C7 theorem -/

/-- C7: each per-band perceived factor equals
`clip((achieved_share / target_share) ** 0.5, 0.5, 2.0)` whenever the band's
target share is positive, and for every achieved/target pair (bands with
zero or negative target share included) the factor lies within
`[0.5, 2.0]`. -/
theorem perc_factors_bounded {k : ℕ}
    (achieved target : Fin k → ℝ) (i : Fin k) :
    (0 < target i →
      perc_factors achieved target i
        = npClip (Real.sqrt (achieved i / target i)) (1 / 2) 2) ∧
    1 / 2 ≤ perc_factors achieved target i ∧
    perc_factors achieved target i ≤ 2 := by
  refine ⟨fun h => ?_, ?_, ?_⟩
  · simp [perc_factors, h]
  · simp only [perc_factors, npClip]
    exact le_min (le_max_right _ _) (by norm_num)
  · simp only [perc_factors, npClip]
    exact min_le_right _ _

/-- Witness for C7 at a concrete input: one band with achieved share 1 and
target share 4, whose factor evaluates to `sqrt(1/4) = 1/2`. -/
theorem perc_factors_bounded_witness :
    (0 : ℝ) < 4 ∧
    perc_factors (fun _ : Fin 1 => (1 : ℝ)) (fun _ => 4) 0 = 1 / 2 ∧
    1 / 2 ≤ perc_factors (fun _ : Fin 1 => (1 : ℝ)) (fun _ => 4) 0 ∧
    perc_factors (fun _ : Fin 1 => (1 : ℝ)) (fun _ => 4) 0 ≤ 2 := by
  have h := perc_factors_bounded (fun _ : Fin 1 => (1 : ℝ)) (fun _ => 4) 0
  have h4 : (0 : ℝ) < 4 := by norm_num
  refine ⟨h4, ?_, h.2.1, h.2.2⟩
  rw [h.1 h4]
  have hs : Real.sqrt ((1 : ℝ) / 4) = 1 / 2 := by
    rw [show (1 : ℝ) / 4 = (1 / 2) ^ 2 by norm_num,
      Real.sqrt_sq (by norm_num : (0 : ℝ) ≤ 1 / 2)]
  rw [hs, npClip]
  norm_num

/-! ## C10 theorem -/

/-- C10: `_update_tcd` is idempotent on every target-cost-distribution table
with a non-zero trips total: a second application changes neither the filled
`ave_km` values nor the recomputed `band_share` values, so the repeated call
in `GravityModelCalibrator.__init__` leaves the table unchanged. -/
theorem update_tcd_idempotent (tcd : List TCDRow)
    (_htotal : (tcd.map fun r => r.trips).sum ≠ 0) :
    update_tcd (update_tcd tcd) = update_tcd tcd := by
  have htr : ((update_tcd tcd).map fun r => r.trips)
      = tcd.map fun r => r.trips := by
    simp only [update_tcd, List.map_map]
    rfl
  simp only [update_tcd, List.map_map] at htr ⊢
  rw [htr]
  refine List.map_congr_left fun r _ => ?_
  simp only [Function.comp]
  cases hav : r.ave_km with
  | none =>
    simp only [hav]
    by_cases h0 : r.min = 0 <;> simp [h0]
  | some v =>
    simp only [hav]
    by_cases h0 : v = 0
    · by_cases hm : r.min = 0 <;> simp [h0, hm]
    · simp [h0]

/-- Witness for C10 at a concrete input: a two-band table with one missing
and one zero `ave_km`, trips totalling 10. -/
theorem update_tcd_idempotent_witness :
    (([⟨0, 5, 4, none, none⟩,
       ⟨5, 10, 6, some 0, none⟩] : List TCDRow).map fun r => r.trips).sum ≠ 0
    ∧ update_tcd (update_tcd
        [⟨0, 5, 4, none, none⟩, ⟨5, 10, 6, some 0, none⟩])
      = update_tcd [⟨0, 5, 4, none, none⟩, ⟨5, 10, 6, some 0, none⟩] :=
  ⟨by norm_num,
   update_tcd_idempotent
     [⟨0, 5, 4, none, none⟩, ⟨5, 10, 6, some 0, none⟩] (by norm_num)⟩

/-! ## C4 theorem -/

/-- C4: after the first optimisation pass with perceived factors enabled,
`GravityModelCalibrator.calibrate` returns at once (one pass, no warnings)
when the achieved convergence exceeds `target + 0.03`; warns and returns
without a second pass when it is below `target - 0.15`; and otherwise runs
the full optimisation exactly once more, warning non-fatally exactly when
the final convergence still falls short of the target. -/
theorem calibrate_perceived_flow_spec (target : ℚ) (achieved : ℕ → ℚ) :
    (achieved 1 > target + 3 / 100 →
      calibrate_perceived_flow true target achieved = ⟨1, false, false⟩) ∧
    (achieved 1 < target - 15 / 100 →
      calibrate_perceived_flow true target achieved = ⟨1, true, false⟩) ∧
    (target - 15 / 100 ≤ achieved 1 → achieved 1 ≤ target + 3 / 100 →
      (calibrate_perceived_flow true target achieved).optimisation_passes = 2
      ∧ (calibrate_perceived_flow true target
          achieved).warned_lower_threshold = false
      ∧ ((calibrate_perceived_flow true target
            achieved).warned_final_shortfall = true ↔ achieved 2 < target)) :=
    by
  refine ⟨fun h => ?_, fun h => ?_, fun h1 h2 => ?_⟩
  · simp [calibrate_perceived_flow, h]
  · have hu : ¬ (achieved 1 > target + 3 / 100) := by
      rw [not_lt]
      linarith
    simp [calibrate_perceived_flow, hu, h]
  · have hu : ¬ (achieved 1 > target + 3 / 100) := not_lt.mpr h2
    have hl : ¬ (achieved 1 < target - 15 / 100) := not_lt.mpr h1
    simp [calibrate_perceived_flow, hu, hl, decide_eq_true_iff]

/-- Witness for C4 at a concrete input: target convergence 0.9, first pass
achieving 0.85 (inside the perceived-factor window), second pass achieving
1, so two passes run and no warning fires. -/
theorem calibrate_perceived_flow_spec_witness :
    ((9 : ℚ) / 10 - 15 / 100 ≤ 85 / 100) ∧
    ((85 : ℚ) / 100 ≤ 9 / 10 + 3 / 100) ∧
    (calibrate_perceived_flow true (9 / 10)
      (fun n => if n = 1 then 85 / 100 else 1)).optimisation_passes = 2 ∧
    (calibrate_perceived_flow true (9 / 10)
      (fun n => if n = 1 then 85 / 100 else 1)).warned_final_shortfall
      = false := by
  have h := (calibrate_perceived_flow_spec (9 / 10)
    (fun n => if n = 1 then 85 / 100 else 1)).2.2
    (by norm_num) (by norm_num)
  refine ⟨by norm_num, by norm_num, h.1, ?_⟩
  have h3 := h.2.2
  simp only [show ((fun n => if n = 1 then (85 : ℚ) / 100 else 1) 2) = 1 from
    rfl] at h3
  by_cases hb : (calibrate_perceived_flow true (9 / 10)
      (fun n => if n = 1 then 85 / 100 else 1)).warned_final_shortfall
  · exfalso
    have := h3.mp hb
    norm_num at this
  · simpa using hb

/-! ## C9 theorem -/

/-- Helper: a required key that the dictionary lacks falsifies
`all_keys_exist`. -/
theorem all_keys_exist_eq_false_of_missing (dict_keys keys : List ℤ) (a : ℤ)
    (ha : a ∈ keys) (hmiss : dict_keys.contains a = false) :
    all_keys_exist dict_keys keys = false := by
  rw [all_keys_exist]
  by_contra h
  rw [Bool.not_eq_false, List.all_eq_true] at h
  rw [h a ha] at hmiss
  cases hmiss

/-- Helper: a label occurring in the calibration matrix and distinct from
the ignore sentinel is a calibration area. -/
theorem mem_calib_areas_of (m : List ℤ) (a : ℤ) (ham : a ∈ m)
    (hane : a ≠ ignore_calib_area_value) : a ∈ calib_areas_of m := by
  rw [calib_areas_of, list_safe_remove, List.mem_filter]
  refine ⟨List.mem_dedup.mpr ham, ?_⟩
  simp [hane]

/-- C9: configuration errors are raised at construction: a running-log path
whose parent directory does not exist fails both the shared base-class
validation and the multi-area constructor with a file-not-found error; a
calibration-area label occurring in the calibration matrix (other than the
ignore sentinel) that is absent from the naming map or from the
target-cost-distribution map makes the multi-area constructor raise an
error; and a log path naming an already-existing file in an existing
directory only sets the non-fatal warning flag and construction succeeds. -/
theorem constructor_validation_spec :
    (∀ (fs : FileSys) (p : ℕ × ℕ) (m nk tk : List ℤ),
      fs.dirExists p.1 = false →
        validate_running_log_path fs (some p)
          = Except.error ConfigError.logDirNotFound ∧
        multi_tld_init fs (some p) m nk tk
          = Except.error ConfigError.logDirNotFound) ∧
    (∀ (fs : FileSys) (lp : Option (ℕ × ℕ)) (m nk tk : List ℤ) (a : ℤ),
      a ∈ m → a ≠ ignore_calib_area_value →
      (nk.contains a = false ∨ tk.contains a = false) →
      ∃ e, multi_tld_init fs lp m nk tk = Except.error e) ∧
    (∀ (fs : FileSys) (p : ℕ × ℕ) (m nk tk : List ℤ),
      fs.dirExists p.1 = true → fs.fileExists p = true →
      all_keys_exist nk (calib_areas_of m) = true →
      all_keys_exist tk (calib_areas_of m) = true →
        multi_tld_init fs (some p) m nk tk
          = Except.ok (calib_areas_of m, true)) := by
  refine ⟨fun fs p m nk tk h => ?_, fun fs lp m nk tk a ham hane hmiss => ?_,
    fun fs p m nk tk h1 h2 hnk htk => ?_⟩
  · constructor
    · simp [validate_running_log_path, h]
    · simp [multi_tld_init, validate_running_log_path, h]
  · cases hv : validate_running_log_path fs lp with
    | error e => exact ⟨e, by simp [multi_tld_init, hv]⟩
    | ok warned =>
      have hmem : a ∈ calib_areas_of m := mem_calib_areas_of m a ham hane
      by_cases hone : all_keys_exist nk (calib_areas_of m) = false
      · exact ⟨ConfigError.missingCalibrationName,
          by simp [multi_tld_init, hv, hone]⟩
      · rw [Bool.not_eq_false] at hone
        cases hmiss with
        | inl hcon =>
          rw [all_keys_exist_eq_false_of_missing nk (calib_areas_of m) a
            hmem hcon] at hone
          cases hone
        | inr hcon =>
          refine ⟨ConfigError.missingTargetCostDistribution, ?_⟩
          have htwo := all_keys_exist_eq_false_of_missing tk
            (calib_areas_of m) a hmem hcon
          simp [multi_tld_init, hv, hone, htwo]
  · simp [multi_tld_init, validate_running_log_path, h1, h2, hnk, htk]

/-- Witness for C9 at concrete inputs: a filesystem where only directory 0
exists and the file (0, 7) exists; calibration matrix [1, 2, -1]. -/
theorem constructor_validation_spec_witness :
    (FileSys.mk (fun _ => false) (fun _ => false)).dirExists 0 = false ∧
    multi_tld_init (FileSys.mk (fun _ => false) (fun _ => false))
      (some (0, 7)) [1, 2, -1] [1, 2] [1, 2]
      = Except.error ConfigError.logDirNotFound ∧
    (2 : ℤ) ∈ ([1, 2, -1] : List ℤ) ∧
    ([1] : List ℤ).contains 2 = false ∧
    (∃ e, multi_tld_init
      (FileSys.mk (fun d => decide (d = 0)) (fun p => decide (p = (0, 7))))
      (some (0, 7)) [1, 2, -1] [1] [1, 2] = Except.error e) ∧
    all_keys_exist [1, 2] (calib_areas_of [1, 2, -1]) = true ∧
    multi_tld_init
      (FileSys.mk (fun d => decide (d = 0)) (fun p => decide (p = (0, 7))))
      (some (0, 7)) [1, 2, -1] [1, 2] [1, 2]
      = Except.ok (calib_areas_of [1, 2, -1], true) := by
  refine ⟨rfl, ?_, by simp, rfl, ?_, rfl, ?_⟩
  · exact ((constructor_validation_spec.1
      (FileSys.mk (fun _ => false) (fun _ => false)) (0, 7)
      [1, 2, -1] [1, 2] [1, 2]) rfl).2
  · exact constructor_validation_spec.2.1
      (FileSys.mk (fun d => decide (d = 0)) (fun p => decide (p = (0, 7))))
      (some (0, 7)) [1, 2, -1] [1] [1, 2] 2 (by simp) (by decide) (Or.inl rfl)
  · exact constructor_validation_spec.2.2
      (FileSys.mk (fun d => decide (d = 0)) (fun p => decide (p = (0, 7))))
      (0, 7) [1, 2, -1] [1, 2] [1, 2] rfl (by decide) rfl rfl

/-! ## C1 theorem -/

/-- C1 (code bug): `_threaded_calibrate` never returns the per-area
optimal-parameter dictionary.  After joining every area calibration thread
(each of whose `run_target` returns `None`), its tail prints diagnostic
values and calls `exit()`, so for every configuration the coordinator
terminates the process instead of returning. -/
theorem threaded_calibrate_never_returns (π : Type) (calib_areas : List ℤ) :
    threaded_calibrate π calib_areas
      = ThreadedCalibrateResult.processExit :=
  rfl

/-! ## C5 theorems -/

/-- Helper: an area whose queue never holds data stays in the needed set of
every polling pass. -/
theorem mem_pollRun_of_never_avail (avail : ℕ → ℤ → Bool) (need : List ℤ)
    (a : ℤ) (ha : a ∈ need) (hnever : ∀ t, avail t a = false) :
    ∀ k, a ∈ pollRun avail need k := by
  intro k
  induction k with
  | zero => exact ha
  | succ k ih =>
    simp only [pollRun, pollStep]
    rw [List.mem_filter]
    exact ⟨ih, by simp [hnever k]⟩

/-- C5 counterexample: with the round's wait set holding areas 1 and 2,
where area 1's queue has data in the first polling pass and area 2's worker
never submits (it failed before submitting), the `_get_q_data` wait loop
never completes — the wait is not bounded by the set of still-active
areas, so one failed area leaves the aggregator blocked. -/
theorem get_q_data_blocks_on_silent_area :
    ¬ getQDataCompletes (fun t a => decide (a = 1) && decide (t = 0))
        (run_target_round_need [1, 2]) := by
  rintro ⟨k, hk⟩
  have h2 : (2 : ℤ) ∈ pollRun (fun t a => decide (a = 1) && decide (t = 0))
      (run_target_round_need [1, 2]) k :=
    mem_pollRun_of_never_avail _ _ 2 (by simp [run_target_round_need])
      (fun t => by simp) k
  rw [hk] at h2
  exact (List.not_mem_nil 2) h2

/-- C5 (amended): each `run_target` rendezvous round initialises the
aggregator's wait set to the full, fixed calibration-area key set — not the
set of currently active areas — and `_get_q_data` shrinks it only as
submissions arrive; consequently, if any area in the set never submits
(for example because its worker errored out or already finished), the wait
loop never completes and the aggregator stays blocked forever. -/
theorem get_q_data_wait_unbounded (avail : ℕ → ℤ → Bool)
    (calib_area_keys : List ℤ) (a : ℤ) (ha : a ∈ calib_area_keys)
    (hnever : ∀ t, avail t a = false) :
    run_target_round_need calib_area_keys = calib_area_keys ∧
    (∀ k, pollRun avail (run_target_round_need calib_area_keys) k ≠ []) ∧
    ¬ getQDataCompletes avail (run_target_round_need calib_area_keys) := by
  have hstay := mem_pollRun_of_never_avail avail
    (run_target_round_need calib_area_keys) a ha hnever
  refine ⟨rfl, fun k hk => ?_, fun hdone => ?_⟩
  · have h := hstay k
    rw [hk] at h
    exact (List.not_mem_nil a) h
  · rcases hdone with ⟨k, hk⟩
    have := hstay k
    rw [hk] at this
    exact (List.not_mem_nil a) this

/-- Witness for the amended C5 at a concrete input: areas 3 and 4 where no
queue ever holds data. -/
theorem get_q_data_wait_unbounded_witness :
    (3 : ℤ) ∈ ([3, 4] : List ℤ) ∧
    ¬ getQDataCompletes (fun _ _ => false) (run_target_round_need [3, 4]) :=
  ⟨by simp,
   (get_q_data_wait_unbounded (fun _ _ => false) [3, 4] 3 (by simp)
     (fun _ => rfl)).2.2⟩

/-! ## C6 theorems -/

/-- Helper: a one-hot indicator sums to zero over a list missing its hot
index. -/
theorem sum_indicator_of_not_mem (l : List ℤ) (x : ℤ) (v : ℚ)
    (hx : x ∉ l) : (l.map fun a => if x = a then v else 0).sum = 0 := by
  induction l with
  | nil => rfl
  | cons b t ih =>
    have hxb : x ≠ b := fun h => hx (h ▸ List.mem_cons_self b t)
    simp only [List.map_cons, List.sum_cons, if_neg hxb]
    rw [ih fun h => hx (List.mem_cons_of_mem b h), add_zero]

/-- Helper: a one-hot indicator sums to its value over a duplicate-free list
containing its hot index. -/
theorem sum_indicator_of_nodup_mem (l : List ℤ) (x : ℤ) (v : ℚ)
    (hnd : l.Nodup) (hx : x ∈ l) :
    (l.map fun a => if x = a then v else 0).sum = v := by
  induction l with
  | nil => cases hx
  | cons b t ih =>
    rcases List.mem_cons.mp hx with rfl | hxt
    · simp only [List.map_cons, List.sum_cons]
      rw [if_pos trivial,
        sum_indicator_of_not_mem t x v (List.nodup_cons.mp hnd).1, add_zero]
    · have hxb : x ≠ b := fun h => (List.nodup_cons.mp hnd).1 (h ▸ hxt)
      simp only [List.map_cons, List.sum_cons, if_neg hxb]
      rw [ih (List.nodup_cons.mp hnd).2 hxt, zero_add]

/-- C6: summing the per-area masked partial matrices handed back to the
areas over all calibration areas, together with the cells labelled with the
ignore sentinel, reconstructs the global furnessed matrix exactly, cell by
cell: split then merge is the identity. -/
theorem merge_split_identity (furnessed : List (ℤ × ℚ)) :
    merge_split furnessed = furnessed.map fun c => c.2 := by
  rw [merge_split]
  refine List.map_congr_left fun c hc => ?_
  have hsc : ∀ a : ℤ, split_cell c a = if c.1 = a then c.2 else 0 := by
    intro a
    simp [split_cell, area_mask, mul_ite]
  simp only [hsc]
  by_cases hig : c.1 = ignore_calib_area_value
  · rw [if_pos hig]
    have hnot : c.1 ∉ calib_areas_of (furnessed.map fun c => c.1) := by
      rw [calib_areas_of, list_safe_remove, List.mem_filter]
      rintro ⟨-, habs⟩
      simp [hig] at habs
    rw [sum_indicator_of_not_mem _ _ _ hnot, zero_add]
  · rw [if_neg hig]
    have hmem : c.1 ∈ calib_areas_of (furnessed.map fun c => c.1) :=
      mem_calib_areas_of _ _ (List.mem_map.mpr ⟨c, hc, rfl⟩) hig
    have hnd : (calib_areas_of (furnessed.map fun c => c.1)).Nodup := by
      rw [calib_areas_of, list_safe_remove]
      exact (List.nodup_dedup _).filter _
    rw [sum_indicator_of_nodup_mem _ _ _ hnd hmem, add_zero]

/-! ## C3 theorem -/

/-- C3: each Jacobian column of `_jacobian_function` is computed without a
full re-furness: the furness-induced change is the elementwise ratio of the
previous balanced matrix to the previous unbalanced matrix (0 where the
unbalanced value is 0); the perturbed estimate is re-balanced by
`jacobian_furness` to the final matrix's own row and column margins; and
the column equals
`(previous_achieved_band_share - perturbed_band_share) / (parameter_value *
diff_step)`.  `GravityModelCalibrator.jacobian_furness` runs that balancing
with a fixed tolerance of 1e-6 and a cap of 20 iterations, warnings off. -/
theorem jacobian_function_spec {n m p : ℕ}
    (jf : Mat n m → (Fin n → ℚ) → (Fin m → ℚ) → Mat n m)
    (cost_matrix : Mat n m) (tcd_bin_edges : List ℚ)
    (achieved_band_share : List ℚ) (jac_base jac_final : Mat n m)
    (jac_adj : Fin p → Mat n m) (cost_args : Fin p → ℚ) (diff_step : ℚ)
    (k : Fin p) :
    jacobian_function jf cost_matrix tcd_bin_edges achieved_band_share
        jac_base jac_final jac_adj cost_args diff_step k
      = (List.zipWith (fun a b => a - b) achieved_band_share
          (cost_distribution cost_matrix
            (jf (jacobian_perturbed_seed jac_base jac_final (jac_adj k))
              (rowSums jac_final) (colSums jac_final))
            tcd_bin_edges)).map
          (fun r => r / (cost_args k * diff_step)) ∧
    (∀ i j, jac_base i j = 0 →
      furness_factor jac_base jac_final i j = 0) ∧
    (∀ (seed : Mat n m) (rt : Fin n → ℚ) (ct : Fin m → ℚ),
      (jacobian_furness_call seed rt ct).tol = 1 / 1000000 ∧
      (jacobian_furness_call seed rt ct).max_iters = 20 ∧
      (jacobian_furness_call seed rt ct).warn = some false) := by
  refine ⟨rfl, fun i j h => ?_, fun seed rt ct => ⟨rfl, rfl, rfl⟩⟩
  simp [furness_factor, h]

/-- Witness for C3 at a concrete input: a 1-by-1 system whose previous
unbalanced matrix is zero (so the furness factor is taken as 0 rather than
dividing), with the identity as the balancing function. -/
theorem jacobian_function_spec_witness :
    ((fun _ _ => (0 : ℚ)) : Mat 1 1) 0 0 = 0 ∧
    furness_factor ((fun _ _ => (0 : ℚ)) : Mat 1 1) (fun _ _ => 1) 0 0 = 0 ∧
    (jacobian_furness_call ((fun _ _ => (0 : ℚ)) : Mat 1 1)
      (fun _ => 0) (fun _ => 0)).tol = 1 / 1000000 ∧
    (jacobian_furness_call ((fun _ _ => (0 : ℚ)) : Mat 1 1)
      (fun _ => 0) (fun _ => 0)).max_iters = 20 :=
  ⟨rfl,
   (jacobian_function_spec (fun s _ _ => s) ((fun _ _ => 1) : Mat 1 1)
     [0, 2] [1] (fun _ _ => 0) (fun _ _ => 1)
     ((fun _ => fun _ _ => 1) : Fin 1 → Mat 1 1) (fun _ => 1) 1
     0).2.1 0 0 rfl,
   ((jacobian_function_spec (fun s _ _ => s) ((fun _ _ => 1) : Mat 1 1)
     [0, 2] [1] (fun _ _ => 0) (fun _ _ => 1)
     ((fun _ => fun _ _ => 1) : Fin 1 → Mat 1 1) (fun _ => 1) 1
     0).2.2 (fun _ _ => 0) (fun _ => 0) (fun _ => 0)).1,
   ((jacobian_function_spec (fun s _ _ => s) ((fun _ _ => 1) : Mat 1 1)
     [0, 2] [1] (fun _ _ => 0) (fun _ _ => 1)
     ((fun _ => fun _ _ => 1) : Fin 1 → Mat 1 1) (fun _ => 1) 1
     0).2.2 (fun _ _ => 0) (fun _ => 0) (fun _ => 0)).2.1⟩
